import Mathlib

/-!
Shallow embedding of the Gaussian Naive Bayes classifier from
`src/naiveBayes.js` (class `NaiveBayes`).  JavaScript numbers are modelled
as real numbers; arrays as `List`; out-of-range array reads use `List.getD`
with default `0` (a positive-integer label never equals `0`, and the claims
with in-range indices are unaffected by the default).  The per-instance
`#data` object built by `fit` is modelled as an explicit `Model` value.
-/

namespace NB

/-- Scan of `#formatData` (lines 34-40 of `naiveBayes.js`): a counter that is
incremented whenever `labels[i] > numOfUniqueLabels`. -/
def numOfUniqueLabels (labels : List ℕ) : ℕ :=
  labels.foldl (fun n l => if n < l then n + 1 else n) 0

/-- Partition step of `#formatData` (lines 53-60): for class `c` and attribute
`j`, the values `x[i][j]` of the rows `i` with `y[i] = c`, in row order. -/
def sortedAttributes : List (List ℝ) → List ℕ → ℕ → ℕ → List ℝ
  | row :: xs, lab :: ys, c, j =>
      if lab = c then row.getD j 0 :: sortedAttributes xs ys c j
      else sortedAttributes xs ys c j
  | _, _, _, _ => []

/-- Mean of one attribute list, as computed by `#meanEachAttributeCategory`
(lines 66-87): sum of the values divided by their count. -/
noncomputable def meanList (l : List ℝ) : ℝ :=
  l.sum / (l.length : ℝ)

/-- Variance of one attribute list, as computed by `#standardDeviation`
(lines 100-108): average of the squared differences from the mean. -/
noncomputable def varianceList (l : List ℝ) : ℝ :=
  (l.map (fun v => (v - meanList l) ^ 2)).sum / (l.length : ℝ)

/-- Standard deviation of one attribute list (line 111): square root of the
variance. -/
noncomputable def stDevList (l : List ℝ) : ℝ :=
  Real.sqrt (varianceList l)

/-- Fitted state of the classifier: the `#data` object after `fit`.  Class
`c` (with `1 ≤ c ≤ K`) is stored at list position `c - 1`; `mean` and
`stDev` are indexed by class position, then attribute index. -/
structure Model where
  K : ℕ
  mean : List (List ℝ)
  stDev : List (List ℝ)

/-- Training entry point `fit` (lines 13-22): partitions the rows by label
(`#formatData`), then computes the per-class per-attribute mean
(`#meanEachAttributeCategory`) and standard deviation (`#standardDeviation`).
The number of attributes is `x[0].length` (line 42). -/
noncomputable def fit (x : List (List ℝ)) (y : List ℕ) : Model :=
  let K := numOfUniqueLabels y
  let A := (x.headD []).length
  { K := K
    mean := (List.range K).map fun c =>
      (List.range A).map fun j => meanList (sortedAttributes x y (c + 1) j)
    stDev := (List.range K).map fun c =>
      (List.range A).map fun j => stDevList (sortedAttributes x y (c + 1) j) }

/-- Mean of attribute `j` for the class stored at position `c` of a model. -/
def meanAt (m : Model) (c j : ℕ) : ℝ :=
  (m.mean.getD c []).getD j 0

/-- Standard deviation of attribute `j` for the class at position `c`. -/
def stDevAt (m : Model) (c j : ℕ) : ℝ :=
  (m.stDev.getD c []).getD j 0

/-- Gaussian probability density `#pdf` (lines 186-188). -/
noncomputable def pdf (xInput meanTraining stdTraining : ℝ) : ℝ :=
  (1 / (Real.sqrt (2 * Real.pi) * stdTraining)) *
    Real.exp (-((xInput - meanTraining) ^ 2) / (2 * stdTraining ^ 2))

/-- Density table `#calculatePDFPredictions` (lines 160-176): outer loop over
the attributes `j` of the input row, inner loop over the classes (the keys
`1..K` of `#data`, visited in ascending order), giving `pdf` of the input
attribute against that class's trained mean and standard deviation. -/
noncomputable def calculatePDFPredictions (m : Model) (xs : List ℝ) :
    List (List ℝ) :=
  (List.range xs.length).map fun j =>
    (List.range m.K).map fun c =>
      pdf (xs.getD j 0) (meanAt m c j) (stDevAt m c j)

/-- Logarithm step `#convertPDFPredictionsToLog` (lines 196-204): natural
logarithm of every entry of the table. -/
noncomputable def convertPDFPredictionsToLog (p : List (List ℝ)) :
    List (List ℝ) :=
  p.map fun row => row.map Real.log

/-- Summation step `#sumLogPDF` (lines 212-227): entry `h` is the sum over
the outer index `j` of `p[j][h]`; the number of entries is `p[0].length`
(line 214, the class count when the input row is non-empty). -/
noncomputable def sumLogPDF (p : List (List ℝ)) : List ℝ :=
  (List.range (p.headD []).length).map fun h =>
    (p.map fun row => row.getD h 0).sum

/-- Exponentiation step `#convertLogToOriginal` (lines 235-243). -/
noncomputable def convertLogToOriginal (l : List ℝ) : List ℝ :=
  l.map Real.exp

/-- Normalization step `#normalizeProbabilities` (lines 251-264): every entry
divided by the sum of all entries. -/
noncomputable def normalizeProbabilities (l : List ℝ) : List ℝ :=
  l.map fun v => v / l.sum

/-- Argmax step `#findHighestProbabilityIndex` (lines 272-281): scan from
index `0`; the running index is replaced only when a strictly greater value
is found. -/
noncomputable def findHighestProbabilityIndex (l : List ℝ) : ℕ :=
  (List.range l.length).foldl
    (fun m j => if l.getD m 0 < l.getD j 0 then j else m) 0

/-- Body of the `predict` loop (lines 128-148) for one input row. -/
noncomputable def predictRow (m : Model) (xs : List ℝ) : ℕ :=
  findHighestProbabilityIndex
    (normalizeProbabilities
      (convertLogToOriginal
        (sumLogPDF
          (convertPDFPredictionsToLog
            (calculatePDFPredictions m xs)))))

/-- Inference entry point `predict` (lines 124-151): one 0-based class index
per input row, in input order. -/
noncomputable def predict (m : Model) (x : List (List ℝ)) : List ℕ :=
  x.map (predictRow m)

/-- Counting loop `#countCorrectlyClassifiedPredictions` (lines 306-315):
indices `i < total` with `y[i] = predictions[i] + 1`; a read past the end of
`y` yields the default `0`, which never equals `predictions[i] + 1`, matching
the JavaScript comparison against `undefined`. -/
def countCorrectlyClassifiedPredictions
    (predictions y : List ℕ) (total : ℕ) : ℕ :=
  ((List.range total).filter
    fun i => y.getD i 0 == predictions.getD i 0 + 1).length

/-- Scoring entry point `accuracyScore` (lines 290-296): correct count
divided by the number of predictions, over exact rationals. -/
def accuracyScore (predictions y : List ℕ) : ℚ :=
  (countCorrectlyClassifiedPredictions predictions y predictions.length : ℚ) /
    (predictions.length : ℚ)

/-! ### Generic list helpers -/

theorem getD_range_map {α : Type} (f : ℕ → α) (n c : ℕ) (d : α)
    (hc : c < n) :
    ((List.range n).map f).getD c d = f c := by
  have h2 : c < ((List.range n).map f).length := by simpa using hc
  rw [List.getD_eq_getElem _ _ h2]
  simp

theorem getD_map_lt {α β : Type} (x : List α) (f : α → β) (i : ℕ)
    (d : β) (e : α) (hi : i < x.length) :
    (x.map f).getD i d = f (x.getD i e) := by
  have h2 : i < (x.map f).length := by simpa using hi
  rw [List.getD_eq_getElem _ _ h2, List.getD_eq_getElem _ _ hi]
  simp

theorem sum_map_div (l : List ℝ) (s : ℝ) :
    (l.map fun v => v / s).sum = l.sum / s := by
  induction l with
  | nil => simp
  | cons a t ih => simp [ih, add_div]

theorem foldl_range_succ (f : ℕ → ℕ → ℕ) (n acc : ℕ) :
    (List.range (n + 1)).foldl f acc = f ((List.range n).foldl f acc) n := by
  rw [List.range_succ, List.foldl_append]
  rfl

/-! ### Properties of the argmax scan -/

/-- Fold of the `#findHighestProbabilityIndex` loop restricted to the first
`n` indices of `l`. -/
noncomputable def hfiFold (l : List ℝ) (n : ℕ) : ℕ :=
  (List.range n).foldl (fun m j => if l.getD m 0 < l.getD j 0 then j else m) 0

theorem findHighest_eq_hfiFold (l : List ℝ) :
    findHighestProbabilityIndex l = hfiFold l l.length := rfl

theorem hfiFold_succ (l : List ℝ) (n : ℕ) :
    hfiFold l (n + 1) =
      if l.getD (hfiFold l n) 0 < l.getD n 0 then n else hfiFold l n := by
  unfold hfiFold
  rw [foldl_range_succ]

theorem hfiFold_invariant (l : List ℝ) :
    ∀ n, 0 < n → hfiFold l n < n
      ∧ (∀ k, k < n → l.getD k 0 ≤ l.getD (hfiFold l n) 0)
      ∧ (∀ k, k < hfiFold l n → l.getD k 0 < l.getD (hfiFold l n) 0) := by
  intro n
  induction n with
  | zero => intro h; exact absurd h (lt_irrefl 0)
  | succ n ih =>
    intro _
    by_cases hn : 0 < n
    · obtain ⟨h1, h2, h3⟩ := ih hn
      rw [hfiFold_succ]
      by_cases hlt : l.getD (hfiFold l n) 0 < l.getD n 0
      · rw [if_pos hlt]
        refine ⟨Nat.lt_succ_self n, ?_, ?_⟩
        · intro k hk
          rcases Nat.lt_succ_iff_lt_or_eq.mp hk with hk' | hk'
          · exact le_of_lt (lt_of_le_of_lt (h2 k hk') hlt)
          · rw [hk']
        · intro k hk
          exact lt_of_le_of_lt (h2 k hk) hlt
      · rw [if_neg hlt]
        refine ⟨Nat.lt_succ_of_lt h1, ?_, h3⟩
        intro k hk
        rcases Nat.lt_succ_iff_lt_or_eq.mp hk with hk' | hk'
        · exact h2 k hk'
        · rw [hk']
          exact not_lt.mp hlt
    · have hn0 : n = 0 := Nat.eq_zero_of_not_pos hn
      subst hn0
      have h10 : hfiFold l 1 = 0 := by
        rw [hfiFold_succ]
        simp [hfiFold]
      rw [h10]
      refine ⟨Nat.zero_lt_one, ?_, ?_⟩
      · intro k hk
        have hk0 : k = 0 := Nat.lt_one_iff.mp hk
        rw [hk0]
      · intro k hk
        exact absurd hk (Nat.not_lt_zero k)

theorem hfiFold_zero_of_no_gt (l : List ℝ) :
    ∀ n, (∀ k, k < n → l.getD k 0 ≤ l.getD 0 0) → hfiFold l n = 0 := by
  intro n
  induction n with
  | zero => intro _; simp [hfiFold]
  | succ n ih =>
    intro h
    rw [hfiFold_succ, ih fun k hk => h k (Nat.lt_succ_of_lt hk)]
    rw [if_neg (not_lt.mpr (h n (Nat.lt_succ_self n)))]

theorem findHighest_lt_length (l : List ℝ) (hl : l ≠ []) :
    findHighestProbabilityIndex l < l.length := by
  rw [findHighest_eq_hfiFold]
  exact (hfiFold_invariant l l.length (List.length_pos.mpr hl)).1

theorem findHighest_is_max (l : List ℝ) (hl : l ≠ []) :
    ∀ k, k < l.length →
      l.getD k 0 ≤ l.getD (findHighestProbabilityIndex l) 0 := by
  rw [findHighest_eq_hfiFold]
  exact (hfiFold_invariant l l.length (List.length_pos.mpr hl)).2.1

theorem findHighest_first_occurrence (l : List ℝ) (hl : l ≠ []) :
    ∀ k, k < findHighestProbabilityIndex l →
      l.getD k 0 < l.getD (findHighestProbabilityIndex l) 0 := by
  rw [findHighest_eq_hfiFold]
  exact (hfiFold_invariant l l.length (List.length_pos.mpr hl)).2.2

theorem findHighest_zero_of_no_gt (l : List ℝ)
    (h : ∀ k, k < l.length → l.getD k 0 ≤ l.getD 0 0) :
    findHighestProbabilityIndex l = 0 := by
  rw [findHighest_eq_hfiFold]
  exact hfiFold_zero_of_no_gt l l.length h

/-! ### The value list fed into the normalization step -/

theorem chain_eq (m : Model) (xs : List ℝ) (hxs : xs ≠ []) :
    convertLogToOriginal (sumLogPDF (convertPDFPredictionsToLog
        (calculatePDFPredictions m xs)))
    = (List.range m.K).map fun h =>
        Real.exp (((List.range xs.length).map fun j =>
          Real.log (pdf (xs.getD j 0) (meanAt m h j) (stDevAt m h j))).sum) := by
  obtain ⟨a, t, rfl⟩ := List.exists_cons_of_ne_nil hxs
  unfold convertLogToOriginal sumLogPDF convertPDFPredictionsToLog
    calculatePDFPredictions
  simp only [List.map_map, List.length_cons, List.range_succ_eq_map,
    List.map_cons, List.headD_cons, Function.comp, List.length_map,
    List.length_range]
  apply List.map_congr_left
  intro h hh
  have hK : h < m.K := List.mem_range.mp hh
  simp only [Function.comp_apply]
  congr 1
  congr 1
  congr 1
  · exact getD_range_map _ _ _ _ hK
  · apply List.map_congr_left
    intro j _
    simp only [List.map_map, Function.comp_apply]
    exact getD_range_map _ _ _ _ hK

theorem probs_length (m : Model) (xs : List ℝ) (hxs : xs ≠ []) :
    (normalizeProbabilities (convertLogToOriginal (sumLogPDF
      (convertPDFPredictionsToLog (calculatePDFPredictions m xs))))).length
    = m.K := by
  rw [chain_eq m xs hxs]
  simp [normalizeProbabilities]

/-! ### Label-encoding precondition -/

/-- Precondition of `fit` on the label vector, relative to the largest label
`m` seen so far: every label is positive and exceeds the running maximum by
at most one (new classes appear in increasing numeric order, densely). -/
def labelScanOk : ℕ → List ℕ → Prop
  | _, [] => True
  | m, l :: ys => (1 ≤ l ∧ l ≤ m + 1) ∧ labelScanOk (max m l) ys

theorem scan_eq_max (y : List ℕ) :
    ∀ m, labelScanOk m y →
      y.foldl (fun n l => if n < l then n + 1 else n) m = y.foldl max m := by
  induction y with
  | nil => intro m _; rfl
  | cons l ys ih =>
    intro m h
    obtain ⟨⟨h1, h2⟩, h3⟩ := h
    simp only [List.foldl_cons]
    have hstep : (if m < l then m + 1 else m) = max m l := by
      by_cases hm : m < l
      · rw [if_pos hm]; omega
      · rw [if_neg hm]; omega
    rw [hstep]
    exact ih (max m l) h3

theorem le_foldl_max_init (y : List ℕ) : ∀ m, m ≤ y.foldl max m := by
  induction y with
  | nil => intro m; exact le_refl m
  | cons a ys ih =>
    intro m
    simp only [List.foldl_cons]
    exact le_trans (le_max_left m a) (ih (max m a))

theorem mem_le_foldl_max (y : List ℕ) :
    ∀ m l, l ∈ y → l ≤ y.foldl max m := by
  induction y with
  | nil => intro m l hl; exact absurd hl (List.not_mem_nil l)
  | cons a ys ih =>
    intro m l hl
    simp only [List.foldl_cons]
    rcases List.mem_cons.mp hl with h | h
    · rw [h]
      exact le_trans (le_max_right m a) (le_foldl_max_init ys (max m a))
    · exact ih (max m a) l h

theorem scan_members_pos (y : List ℕ) :
    ∀ m, labelScanOk m y → ∀ l ∈ y, 1 ≤ l := by
  induction y with
  | nil => intro m _ l hl; exact absurd hl (List.not_mem_nil l)
  | cons a ys ih =>
    intro m h l hl
    obtain ⟨⟨h1, _⟩, h3⟩ := h
    rcases List.mem_cons.mp hl with h | h
    · rw [h]; exact h1
    · exact ih (max m a) h3 l h

theorem scan_mem (y : List ℕ) :
    ∀ m, labelScanOk m y → ∀ v, m < v → v ≤ y.foldl max m → v ∈ y := by
  induction y with
  | nil =>
    intro m _ v hv1 hv2
    simp only [List.foldl_nil] at hv2
    omega
  | cons a ys ih =>
    intro m h v hv1 hv2
    obtain ⟨⟨h1, h2⟩, h3⟩ := h
    simp only [List.foldl_cons] at hv2
    by_cases hva : v ≤ max m a
    · have hv : v = a := by omega
      rw [hv]
      exact List.mem_cons_self a ys
    · push_neg at hva
      exact List.mem_cons_of_mem a (ih (max m a) h3 v hva hv2)

theorem sortedAttributes_eq_zip_filter (x : List (List ℝ)) :
    ∀ (y : List ℕ) (c j : ℕ),
      sortedAttributes x y c j
        = ((x.zip y).filter fun p => p.2 == c).map fun p => p.1.getD j 0 := by
  induction x with
  | nil => intro y c j; simp [sortedAttributes]
  | cons row xs ih =>
    intro y c j
    cases y with
    | nil => simp [sortedAttributes]
    | cons lab ys =>
      by_cases hl : lab = c
      · simp [sortedAttributes, hl, ih]
      · simp [sortedAttributes, hl, ih]

/-! ### Counting lemmas for the accuracy score -/

theorem count_cons (a b : ℕ) (p y : List ℕ) (t : ℕ) :
    countCorrectlyClassifiedPredictions (a :: p) (b :: y) (t + 1)
      = (if b = a + 1 then 1 else 0)
        + countCorrectlyClassifiedPredictions p y t := by
  unfold countCorrectlyClassifiedPredictions
  rw [List.range_succ_eq_map, List.filter_cons, List.filter_map]
  have hpred : (fun i => (b :: y).getD i 0 == (a :: p).getD i 0 + 1) ∘ Nat.succ
      = fun i => y.getD i 0 == p.getD i 0 + 1 := by
    funext i
    simp [Function.comp]
  rw [hpred]
  by_cases hb : b = a + 1
  · have h0 : ((b :: y).getD 0 0 == (a :: p).getD 0 0 + 1) = true := by
      simp [hb]
    rw [h0]
    simp [hb, Nat.add_comm]
  · have h0 : ((b :: y).getD 0 0 == (a :: p).getD 0 0 + 1) = false := by
      simp [hb]
    rw [h0]
    simp [hb]

theorem count_zip (p : List ℕ) :
    ∀ y : List ℕ, p.length = y.length →
      countCorrectlyClassifiedPredictions p y p.length
        = ((p.zip y).filter fun q => q.2 == q.1 + 1).length := by
  induction p with
  | nil => intro y h; simp [countCorrectlyClassifiedPredictions]
  | cons a ps ih =>
    intro y h
    cases y with
    | nil => simp at h
    | cons b ys =>
      have hlen : ps.length = ys.length := by simpa using h
      have hc : (a :: ps).length = ps.length + 1 := rfl
      rw [hc, count_cons, ih ys hlen]
      by_cases hb : b = a + 1
      · simp [List.filter_cons, hb, Nat.add_comm]
      · simp [List.filter_cons, hb]

theorem count_le_total (p y : List ℕ) (t : ℕ) :
    countCorrectlyClassifiedPredictions p y t ≤ t := by
  unfold countCorrectlyClassifiedPredictions
  calc ((List.range t).filter
        fun i => y.getD i 0 == p.getD i 0 + 1).length
      ≤ (List.range t).length := List.length_filter_le _ _
    _ = t := List.length_range t

theorem meanAt_fit (x : List (List ℝ)) (y : List ℕ) (c j : ℕ)
    (hc : c < numOfUniqueLabels y) (hj : j < (x.headD []).length) :
    meanAt (fit x y) c j = meanList (sortedAttributes x y (c + 1) j) := by
  simp only [meanAt, fit]
  rw [getD_range_map _ _ _ _ hc, getD_range_map _ _ _ _ hj]

theorem stDevAt_fit (x : List (List ℝ)) (y : List ℕ) (c j : ℕ)
    (hc : c < numOfUniqueLabels y) (hj : j < (x.headD []).length) :
    stDevAt (fit x y) c j = stDevList (sortedAttributes x y (c + 1) j) := by
  simp only [stDevAt, fit]
  rw [getD_range_map _ _ _ _ hc, getD_range_map _ _ _ _ hj]

/-! ### Concrete inputs used by the witnesses -/

/-- Concrete one-class model used by the witnesses. -/
noncomputable def M0 : Model := ⟨1, [[0]], [[1]]⟩

/-! ### Claim theorems -/

/-- C2: for every fitted model and non-empty input row, the per-class value
that `predict` feeds into the normalization step equals, for class position
`c`, `exp` of the sum over the attributes `j` of `log (pdf ...)` — the
log-densities are summed across all attributes per class, even though the
code groups the densities by attribute first. -/
theorem predict_feeds_exp_sum_log_densities (m : Model) (xs : List ℝ)
    (hxs : xs ≠ []) (c : ℕ) (hc : c < m.K) :
    (convertLogToOriginal (sumLogPDF (convertPDFPredictionsToLog
        (calculatePDFPredictions m xs)))).getD c 0
    = Real.exp (((List.range xs.length).map fun j =>
        Real.log (pdf (xs.getD j 0) (meanAt m c j) (stDevAt m c j))).sum) := by
  rw [chain_eq m xs hxs]
  exact getD_range_map _ _ _ _ hc

/-- Witness for C2 at a concrete model and input row. -/
theorem predict_feeds_exp_sum_log_densities_witness :
    (convertLogToOriginal (sumLogPDF (convertPDFPredictionsToLog
        (calculatePDFPredictions M0 [1])))).getD 0 0
    = Real.exp (((List.range [(1 : ℝ)].length).map fun j =>
        Real.log (pdf ([(1 : ℝ)].getD j 0) (meanAt M0 0 j)
          (stDevAt M0 0 j))).sum) :=
  predict_feeds_exp_sum_log_densities M0 [1] (by simp) 0 (by decide)

/-- C3: `predict` returns one 0-based index per input row, in input order
(`predict` maps the per-row computation over the rows), and the argmax scan
returns the first occurrence of the maximal value: every entry is at most the
entry at the returned index, and every entry before the returned index is
strictly smaller, because only a strictly greater value displaces the running
maximum.  The winning label is the class stored at the returned position,
which `fit` fills with class `index + 1`. -/
theorem predict_first_max_per_row (m : Model) (x : List (List ℝ))
    (l : List ℝ) (hl : l ≠ []) :
    (predict m x).length = x.length
  ∧ (∀ i, i < x.length → (predict m x).getD i 0 = predictRow m (x.getD i []))
  ∧ findHighestProbabilityIndex l < l.length
  ∧ (∀ k, k < l.length →
      l.getD k 0 ≤ l.getD (findHighestProbabilityIndex l) 0)
  ∧ (∀ k, k < findHighestProbabilityIndex l →
      l.getD k 0 < l.getD (findHighestProbabilityIndex l) 0) := by
  refine ⟨by simp [predict], ?_, findHighest_lt_length l hl,
    findHighest_is_max l hl, findHighest_first_occurrence l hl⟩
  intro i hi
  exact getD_map_lt x (predictRow m) i 0 [] hi

/-- Witness for C3 at a concrete model, input matrix and value list. -/
theorem predict_first_max_per_row_witness :
    (predict M0 [[1]]).length = [[(1 : ℝ)]].length
  ∧ (∀ i, i < [[(1 : ℝ)]].length →
      (predict M0 [[1]]).getD i 0 = predictRow M0 ([[(1 : ℝ)]].getD i []))
  ∧ findHighestProbabilityIndex [1, 2] < [(1 : ℝ), 2].length
  ∧ (∀ k, k < [(1 : ℝ), 2].length →
      [(1 : ℝ), 2].getD k 0
        ≤ [(1 : ℝ), 2].getD (findHighestProbabilityIndex [1, 2]) 0)
  ∧ (∀ k, k < findHighestProbabilityIndex [1, 2] →
      [(1 : ℝ), 2].getD k 0
        < [(1 : ℝ), 2].getD (findHighestProbabilityIndex [1, 2]) 0) :=
  predict_first_max_per_row M0 [[1]] [1, 2] (by simp)

/-- C9: the normalization step divides each per-class value by the total of
the list; whenever that total is positive, the normalized values sum to
exactly 1. -/
theorem normalize_sums_to_one (l : List ℝ) (h : 0 < l.sum) :
    (normalizeProbabilities l).sum = 1 := by
  unfold normalizeProbabilities
  rw [sum_map_div]
  exact div_self (ne_of_gt h)

/-- Witness for C9 at a concrete value list. -/
theorem normalize_sums_to_one_witness :
    (normalizeProbabilities [1, 1]).sum = 1 :=
  normalize_sums_to_one [1, 1] (by norm_num)

/-- C10: for a model with at least one class and a non-empty input row, the
per-row prediction is an index in `0..K-1`; and whenever no entry of a value
list is strictly greater than the entry at index `0` the argmax scan returns
index `0` (the running maximum is displaced only by a strictly greater
value). -/
theorem predictRow_in_range (m : Model) (xs : List ℝ)
    (hxs : xs ≠ []) (hK : 0 < m.K) :
    predictRow m xs < m.K
  ∧ ∀ l : List ℝ, (∀ k, k < l.length → l.getD k 0 ≤ l.getD 0 0) →
      findHighestProbabilityIndex l = 0 := by
  constructor
  · have hlen := probs_length m xs hxs
    have hne : normalizeProbabilities (convertLogToOriginal (sumLogPDF
        (convertPDFPredictionsToLog (calculatePDFPredictions m xs)))) ≠ [] := by
      rw [← List.length_pos, hlen]
      exact hK
    have h := findHighest_lt_length _ hne
    rw [hlen] at h
    exact h
  · intro l h
    exact findHighest_zero_of_no_gt l h

/-- Witness for C10 at a concrete model and input row. -/
theorem predictRow_in_range_witness :
    predictRow M0 [1] < M0.K
  ∧ ∀ l : List ℝ, (∀ k, k < l.length → l.getD k 0 ≤ l.getD 0 0) →
      findHighestProbabilityIndex l = 0 :=
  predictRow_in_range M0 [1] (by simp) (by decide)

/-- C1: for every class position `c` and attribute `j` of a fitted model, the
stored mean is the arithmetic mean of the training values of attribute `j` in
class `c + 1`, and the stored standard deviation is the population standard
deviation of those values (sum of squared deviations divided by `N`, then
square root); for the value sequence `[2,4,4,4,5,5,7,9]` the computed mean is
`5` and the computed population standard deviation is exactly `2`. -/
theorem fit_mean_stdDev_formulas (x : List (List ℝ)) (y : List ℕ) (c j : ℕ)
    (hc : c < (fit x y).K) (hj : j < (x.headD []).length) :
    meanAt (fit x y) c j
      = (sortedAttributes x y (c + 1) j).sum
        / ((sortedAttributes x y (c + 1) j).length : ℝ)
  ∧ stDevAt (fit x y) c j
      = Real.sqrt (((sortedAttributes x y (c + 1) j).map fun v =>
          (v - (sortedAttributes x y (c + 1) j).sum
            / ((sortedAttributes x y (c + 1) j).length : ℝ)) ^ 2).sum
          / ((sortedAttributes x y (c + 1) j).length : ℝ))
  ∧ meanList [2, 4, 4, 4, 5, 5, 7, 9] = 5
  ∧ stDevList [2, 4, 4, 4, 5, 5, 7, 9] = 2 := by
  have hc' : c < numOfUniqueLabels y := hc
  have hm : meanList [2, 4, 4, 4, 5, 5, 7, 9] = 5 := by
    simp only [meanList, List.sum_cons, List.sum_nil, List.length_cons,
      List.length_nil]
    norm_num
  have hvar : varianceList [2, 4, 4, 4, 5, 5, 7, 9] = 4 := by
    unfold varianceList
    rw [hm]
    simp only [List.map_cons, List.map_nil, List.sum_cons, List.sum_nil,
      List.length_cons, List.length_nil]
    norm_num
  have hs : stDevList [2, 4, 4, 4, 5, 5, 7, 9] = 2 := by
    unfold stDevList
    rw [hvar, show (4 : ℝ) = 2 ^ 2 by norm_num]
    exact Real.sqrt_sq (by norm_num)
  refine ⟨?_, ?_, hm, hs⟩
  · simp only [meanAt, fit]
    rw [getD_range_map _ _ _ _ hc', getD_range_map _ _ _ _ hj]
    rfl
  · simp only [stDevAt, fit]
    rw [getD_range_map _ _ _ _ hc', getD_range_map _ _ _ _ hj]
    rfl

/-- Witness for C1 at a concrete single-class training set. -/
theorem fit_mean_stdDev_formulas_witness :
    meanAt (fit [[2], [4], [4], [4], [5], [5], [7], [9]]
        [1, 1, 1, 1, 1, 1, 1, 1]) 0 0
      = (sortedAttributes [[2], [4], [4], [4], [5], [5], [7], [9]]
          [1, 1, 1, 1, 1, 1, 1, 1] 1 0).sum
        / ((sortedAttributes [[2], [4], [4], [4], [5], [5], [7], [9]]
          [1, 1, 1, 1, 1, 1, 1, 1] 1 0).length : ℝ)
  ∧ stDevAt (fit [[2], [4], [4], [4], [5], [5], [7], [9]]
        [1, 1, 1, 1, 1, 1, 1, 1]) 0 0
      = Real.sqrt (((sortedAttributes [[2], [4], [4], [4], [5], [5], [7], [9]]
          [1, 1, 1, 1, 1, 1, 1, 1] 1 0).map fun v =>
          (v - (sortedAttributes [[2], [4], [4], [4], [5], [5], [7], [9]]
            [1, 1, 1, 1, 1, 1, 1, 1] 1 0).sum
            / ((sortedAttributes [[2], [4], [4], [4], [5], [5], [7], [9]]
              [1, 1, 1, 1, 1, 1, 1, 1] 1 0).length : ℝ)) ^ 2).sum
          / ((sortedAttributes [[2], [4], [4], [4], [5], [5], [7], [9]]
            [1, 1, 1, 1, 1, 1, 1, 1] 1 0).length : ℝ))
  ∧ meanList [2, 4, 4, 4, 5, 5, 7, 9] = 5
  ∧ stDevList [2, 4, 4, 4, 5, 5, 7, 9] = 2 :=
  fit_mean_stdDev_formulas [[2], [4], [4], [4], [5], [5], [7], [9]]
    [1, 1, 1, 1, 1, 1, 1, 1] 0 0 (by decide) (by simp)

/-- C4: under the precondition that the labels are positive and each new
label value first appears in increasing numeric order (so the values form the
contiguous range `1..K`), the scan of `#formatData` derives exactly `K`
classes — the maximum label; every label lies in `1..K`, every value of
`1..K` occurs, and for every class `c` and attribute `j` the partition holds:
`sortedAttributes` contains exactly the values `x[i][j]`, in row order, of
the rows `i` with `y[i] = c`. -/
theorem fit_scan_partition (x : List (List ℝ)) (y : List ℕ)
    (hy : labelScanOk 0 y) (c j : ℕ) :
    numOfUniqueLabels y = y.foldl max 0
  ∧ (∀ l ∈ y, 1 ≤ l ∧ l ≤ numOfUniqueLabels y)
  ∧ (∀ v, 1 ≤ v → v ≤ numOfUniqueLabels y → v ∈ y)
  ∧ sortedAttributes x y c j
      = ((x.zip y).filter fun p => p.2 == c).map fun p => p.1.getD j 0 := by
  have h1 : numOfUniqueLabels y = y.foldl max 0 := scan_eq_max y 0 hy
  refine ⟨h1, ?_, ?_, sortedAttributes_eq_zip_filter x y c j⟩
  · intro l hl
    refine ⟨scan_members_pos y 0 hy l hl, ?_⟩
    rw [h1]
    exact mem_le_foldl_max y 0 l hl
  · intro v hv1 hv2
    rw [h1] at hv2
    exact scan_mem y 0 hy v (by omega) hv2

/-- Witness for C4 at a concrete training set with two classes. -/
theorem fit_scan_partition_witness :
    numOfUniqueLabels [1, 1, 2] = [1, 1, 2].foldl max 0
  ∧ (∀ l ∈ [1, 1, 2], 1 ≤ l ∧ l ≤ numOfUniqueLabels [1, 1, 2])
  ∧ (∀ v, 1 ≤ v → v ≤ numOfUniqueLabels [1, 1, 2] → v ∈ [1, 1, 2])
  ∧ sortedAttributes [[10], [20], [30]] [1, 1, 2] 2 0
      = (([[(10 : ℝ)], [20], [30]].zip [1, 1, 2]).filter
          fun p => p.2 == 2).map fun p => p.1.getD 0 0 :=
  fit_scan_partition [[10], [20], [30]] [1, 1, 2]
    (by norm_num [labelScanOk]) 2 0

/-- C5: for non-empty, equal-length inputs, `accuracyScore` is the number of
indices with `y[i] = predictions[i] + 1` divided by the number of
predictions, and lies in `[0, 1]`; predictions `[0,1,0]` against labels
`[1,2,1]` score `1` and predictions `[0,0,0]` against labels `[1,2,1]`
score `2/3`. -/
theorem accuracyScore_fraction (p y : List ℕ) (hp : p ≠ [])
    (hl : p.length = y.length) :
    accuracyScore p y
      = (((p.zip y).filter fun q => q.2 == q.1 + 1).length : ℚ)
        / (p.length : ℚ)
  ∧ 0 ≤ accuracyScore p y
  ∧ accuracyScore p y ≤ 1
  ∧ accuracyScore [0, 1, 0] [1, 2, 1] = 1
  ∧ accuracyScore [0, 0, 0] [1, 2, 1] = 2 / 3 := by
  have h1 : accuracyScore p y
      = (((p.zip y).filter fun q => q.2 == q.1 + 1).length : ℚ)
        / (p.length : ℚ) := by
    unfold accuracyScore
    rw [count_zip p y hl]
  refine ⟨h1, ?_, ?_,
    by norm_num [accuracyScore, countCorrectlyClassifiedPredictions,
      List.range_succ],
    by norm_num [accuracyScore, countCorrectlyClassifiedPredictions,
      List.range_succ]⟩
  · unfold accuracyScore
    apply div_nonneg
    · exact_mod_cast Nat.zero_le _
    · exact_mod_cast Nat.zero_le _
  · unfold accuracyScore
    have htot : 0 < (p.length : ℚ) := by
      exact_mod_cast List.length_pos.mpr hp
    rw [div_le_one htot]
    exact_mod_cast count_le_total p y p.length

/-- Witness for C5 at concrete prediction and label lists. -/
theorem accuracyScore_fraction_witness :
    accuracyScore [0] [1]
      = ((([0].zip [1]).filter fun q => q.2 == q.1 + 1).length : ℚ)
        / (([0] : List ℕ).length : ℚ)
  ∧ 0 ≤ accuracyScore [0] [1]
  ∧ accuracyScore [0] [1] ≤ 1
  ∧ accuracyScore [0, 1, 0] [1, 2, 1] = 1
  ∧ accuracyScore [0, 0, 0] [1, 2, 1] = 2 / 3 :=
  accuracyScore_fraction [0] [1] (by decide) (by decide)

/-- C6: the code has no error channel for a zero standard deviation.  At the
training set `X = [[1],[1]]`, `y = [1,1]`, class 1 has the constant attribute
value `1`, so the fitted standard deviation is `0`; a subsequent
`predict [[2]]` still returns the plain index list `[0]` instead of
surfacing a `DegenerateDistributionError` (in JavaScript the improper
density is `NaN` and the `NaN`-driven argmax silently yields index `0`; in
this real-number embedding the division-by-zero conventions make the chain
produce index `0` as well — either way no error is reported). -/
theorem degenerate_stdDev_not_signaled :
    stDevAt (fit [[1], [1]] [1, 1]) 0 0 = 0
  ∧ predict (fit [[1], [1]] [1, 1]) [[2]] = [0] := by
  have hK : (fit [[1], [1]] [1, 1]).K = 1 := by decide
  have hsorted : sortedAttributes [[1], [1]] [1, 1] 1 0 = [1, 1] := by
    simp [sortedAttributes]
  have hm : meanList [(1 : ℝ), 1] = 1 := by
    simp only [meanList, List.sum_cons, List.sum_nil, List.length_cons,
      List.length_nil]
    norm_num
  have hmean : meanAt (fit [[1], [1]] [1, 1]) 0 0 = 1 := by
    rw [meanAt_fit _ _ 0 0 (by decide) (by decide)]
    simp only [zero_add]
    rw [hsorted]
    exact hm
  have hstdv : stDevList [(1 : ℝ), 1] = 0 := by
    unfold stDevList varianceList
    rw [hm]
    simp only [List.map_cons, List.map_nil, List.sum_cons, List.sum_nil,
      List.length_cons, List.length_nil]
    norm_num [Real.sqrt_zero]
  have hstd : stDevAt (fit [[1], [1]] [1, 1]) 0 0 = 0 := by
    rw [stDevAt_fit _ _ 0 0 (by decide) (by decide)]
    simp only [zero_add]
    rw [hsorted]
    exact hstdv
  have hpdf : pdf 2 1 0 = 0 := by
    unfold pdf
    norm_num
  refine ⟨hstd, ?_⟩
  have hrow : predictRow (fit [[1], [1]] [1, 1]) [2] = 0 := by
    unfold predictRow
    have hcalc : calculatePDFPredictions (fit [[1], [1]] [1, 1]) [2]
        = [[0]] := by
      unfold calculatePDFPredictions
      rw [hK]
      simp [List.range_succ, hmean, hstd, hpdf]
    rw [hcalc]
    have hlog : convertPDFPredictionsToLog [[(0 : ℝ)]] = [[0]] := by
      simp [convertPDFPredictionsToLog, Real.log_zero]
    rw [hlog]
    have hsum : sumLogPDF [[(0 : ℝ)]] = [0] := by
      simp [sumLogPDF, List.range_succ]
    rw [hsum]
    have hexp : convertLogToOriginal [(0 : ℝ)] = [1] := by
      simp [convertLogToOriginal, Real.exp_zero]
    rw [hexp]
    have hnorm : normalizeProbabilities [(1 : ℝ)] = [1] := by
      simp [normalizeProbabilities]
    rw [hnorm]
    apply findHighest_zero_of_no_gt
    intro k hk
    have hk0 : k = 0 := by simpa using hk
    rw [hk0]
  simp [predict, hrow]

/-- C7: no shape validation exists in the code.  With `len(X) = 1` but
`len(y) = 2`, `fit` silently proceeds: the label scan still derives `K = 2`
classes while class 2 receives an empty value list (the surplus label is
silently dropped, poisoning the later mean with a `0/0`); with two
predictions scored against a single label, `accuracyScore` silently treats
the out-of-range label read as a mismatch and returns `1/2` instead of
reporting a `ShapeMismatchError` before computing. -/
theorem shape_mismatch_not_detected :
    (fit [[1]] [1, 2]).K = 2
  ∧ sortedAttributes [[1]] [1, 2] 2 0 = []
  ∧ accuracyScore [0, 0] [1] = 1 / 2 := by
  refine ⟨by decide, by simp [sortedAttributes], ?_⟩
  norm_num [accuracyScore, countCorrectlyClassifiedPredictions,
    List.range_succ]

/-- C8: with both inputs empty, `accuracyScore` performs the division
`0 / 0` and returns its junk value instead of signalling an
`EmptyInputError` (in JavaScript the result is `NaN`; in this rational
embedding the division-by-zero convention yields `0` — either way the call
returns a plain number and reports nothing). -/
theorem empty_accuracy_not_signaled :
    accuracyScore [] [] = 0 := by
  norm_num [accuracyScore, countCorrectlyClassifiedPredictions]

end NB
